import Mathlib

/-!
Shallow embedding of the glance repository's concurrent-fetch core and widget
field parsing, together with theorems settling the specification's claims.

Sources embedded:
 - src/unnamed/part_000 : the stocks feed (`FetchStocksDataFromYahoo`),
 - src/internal/widget/fields.go : `HSLColorField.UnmarshalYAML`,
   `DurationField.UnmarshalYAML`,
 - src/internal/widget/reddit.go : `Reddit.Initialize`.

Go float64 values are modelled as rationals (no claim depends on floating-point
rounding); Go errors are modelled as `Option String` (`none` = nil) or as the
`FetchErr` sentinel type; machine integers carry explicit wrapping where the
code can overflow.  A Go panic that no recover catches (the stocks loop indexes
`Indicators.Quote[0]` on a possibly empty slice) crashes the whole call and
returns nothing: such functions are `Option`-valued, with `none` the crash.
-/

/-! ## Stocks feed data model (src/unnamed/part_000, lines 9-32) -/

structure StockRequest where
  symbol : String
  name : String
deriving DecidableEq, Inhabited

structure ChartMeta where
  symbol : String
  regularMarketPrice : Rat
  chartPreviousClose : Rat
deriving DecidableEq, Inhabited

structure QuoteEntry where
  close : List Rat
deriving DecidableEq, Inhabited

structure ChartResult where
  meta : ChartMeta
  quote : List QuoteEntry
deriving DecidableEq, Inhabited

/-- `stockResponseJson`: `Chart.Result` is the list of chart results. -/
structure StockResponseJson where
  chartResult : List ChartResult
deriving DecidableEq, Inhabited

structure Stock where
  name : String
  symbol : String
  price : Rat
  percentChange : Rat
  svgChartPoints : String
deriving DecidableEq, Inhabited

/-- Modelled from the spec: `percentChange`, `SvgPolylineCoordsFromYValues` and
`maybeCopySliceWithoutZeroValues` are not among the source files; the spec puts
these per-source domain transforms out of scope, so they are taken as
parameters and every theorem below holds for any choice of them. -/
structure DomainTransforms where
  percentChange : Rat → Rat → Rat
  svgPolylineCoordsFromYValues : Rat → Rat → List Rat → String
  maybeCopySliceWithoutZeroValues : List Rat → List Rat

def stockChartDays : Nat := 21

/-- The body of the per-response success branch (part_000 lines 59-90).  Go
reads `Indicators.Quote[0].Close` at line 67, which panics (index out of
range) when `Quote` is empty; `FetchStocksDataFromYahoo` has no recover, so
that panic crashes the whole call, which then returns nothing — modelled as
`none`. -/
def mkStock (t : DomainTransforms) (req : StockRequest) (r : ChartResult) :
    Option Stock :=
  match r.quote with
  | [] => none
  | q :: _ =>
    let prices0 := q.close
    let prices := if prices0.length > stockChartDays then
      prices0.drop (prices0.length - stockChartDays) else prices0
    let previous := if prices.length ≥ 2 ∧ prices.getD (prices.length - 2) 0 ≠ 0 then
      prices.getD (prices.length - 2) 0
    else
      r.meta.regularMarketPrice
    some { name := req.name
           symbol := r.meta.symbol
           price := r.meta.regularMarketPrice
           percentChange := t.percentChange r.meta.regularMarketPrice previous
           svgChartPoints := t.svgPolylineCoordsFromYValues 100 50
             (t.maybeCopySliceWithoutZeroValues prices) }

/-- The error kinds `FetchStocksDataFromYahoo` returns: the bare `ErrNoContent`
sentinel (line 94), `ErrPartialContent` wrapping the failure count (line 98),
and `ErrNoContent` wrapping the executor's batch error (line 46). -/
inductive FetchErr where
  | errNoContent : FetchErr
  | errPartialContent (failed : Nat) : FetchErr
  | errNoContentWrapping (cause : String) : FetchErr
deriving DecidableEq

/-- The result-scanning loop of part_000 lines 49-91: walks the three
index-aligned lists, skipping (and counting as failed) every index whose error
is non-nil or whose response has an empty `Chart.Result`.  An entry with nil
error and chart data but an empty `Indicators.Quote` panics at line 67, so the
whole loop produces nothing: `none`. -/
def processResponses (t : DomainTransforms) :
    List StockRequest → List StockResponseJson → List (Option String) →
      Option (List Stock × Nat)
  | req :: reqs, resp :: resps, e :: es =>
    match e with
    | some _ =>
      (processResponses t reqs resps es).map fun rest => (rest.1, rest.2 + 1)
    | none =>
      match resp.chartResult with
      | [] =>
        (processResponses t reqs resps es).map fun rest => (rest.1, rest.2 + 1)
      | r :: _ =>
        match mkStock t req r with
        | none => none
        | some st =>
          (processResponses t reqs resps es).map fun rest => (st :: rest.1, rest.2)
  | _, _, _ => some ([], 0)

/-! ## Worker pool executor, modelled from the spec (section 4.2)

`workerPoolDo`, `newJob` and `decodeJsonFromRequestTask` are not among the
source files; only their caller is.  Per the spec, the executor runs every
unit (each producing a typed value or an error), writes each unit's outcome to
its own positional slot regardless of the order in which units complete, and
returns a batch error only for whole-batch conditions — never merely because
some units failed; a zero-unit batch yields empty sequences with no error. -/

/-- The typed value a completed unit leaves in its result slot (a failed
unit's slot keeps the zero value, never to be read as valid data). -/
def unitValue {α : Type} [Inhabited α] (o : Except String α) : α :=
  match o with
  | .ok v => v
  | .error _ => default

/-- The error a completed unit leaves in its error slot (`none` = nil). -/
def unitError {α : Type} (o : Except String α) : Option String :=
  match o with
  | .ok _ => none
  | .error e => some e

/-- Modelled from the spec: the executor's write phase.  `sched` is the order
in which units complete; each completion writes only its own index slot of the
positional result and error sequences. -/
def execSchedule {α : Type} [Inhabited α] (outcomes : List (Except String α))
    (sched : List Nat) : List α × List (Option String) :=
  sched.foldl
    (fun acc i =>
      (acc.1.set i (unitValue (outcomes.getD i (.error ""))),
       acc.2.set i (unitError (outcomes.getD i (.error "")))))
    (List.replicate outcomes.length default, List.replicate outcomes.length none)

/-- Modelled from the spec: `workerPoolDo` returns the index-aligned result and
error sequences and a batch error that is nil unless the whole batch is
unobtainable (never set merely because units failed; a zero-unit batch gives
empty sequences and nil).  Completion order is modelled canonically as
submission order; theorem `workerPool_output_aligned` shows every completion
order produces this same output. -/
def workerPoolDo {α : Type} [Inhabited α] (outcomes : List (Except String α)) :
    List α × List (Option String) × Option String :=
  ((execSchedule outcomes (List.range outcomes.length)).1,
   (execSchedule outcomes (List.range outcomes.length)).2,
   none)

/-! ## FetchStocksDataFromYahoo (part_000 lines 34-102) -/

/-- The URL built for one stock request (part_000 line 38). -/
def stockRequestUrl (req : StockRequest) : String :=
  "https://query1.finance.yahoo.com/v8/finance/chart/" ++ req.symbol ++
    "?range=1mo&interval=1d"

/-- Lines 45-101 of part_000: the batch-error check, the scanning loop and the
classification into nil / `ErrNoContent` / `ErrPartialContent`; `none` is the
loop's panic crashing the call. -/
def classifyFetchOutcome (t : DomainTransforms) (stockRequests : List StockRequest)
    (responses : List StockResponseJson) (errs : List (Option String))
    (batchErr : Option String) : Option (List Stock × Option FetchErr) :=
  match batchErr with
  | some e => some ([], some (.errNoContentWrapping e))
  | none =>
    match processResponses t stockRequests responses errs with
    | none => none
    | some pr =>
      if pr.1.isEmpty then some ([], some .errNoContent)
      else if 0 < pr.2 then some (pr.1, some (.errPartialContent pr.2))
      else some (pr.1, none)

/-- The per-unit outcomes the network produces for a request list: `net` maps
each built URL to a decoded response or an error. -/
def netOutcomes (net : String → Except String StockResponseJson)
    (stockRequests : List StockRequest) : List (Except String StockResponseJson) :=
  (stockRequests.map stockRequestUrl).map net

/-- `FetchStocksDataFromYahoo` (part_000 lines 34-102): builds one request per
stock, runs them through the worker pool, scans the aligned outcome lists and
classifies the batch. -/
def FetchStocksDataFromYahoo (t : DomainTransforms)
    (net : String → Except String StockResponseJson)
    (stockRequests : List StockRequest) : Option (List Stock × Option FetchErr) :=
  classifyFetchOutcome t stockRequests
    (workerPoolDo (netOutcomes net stockRequests)).1
    (workerPoolDo (netOutcomes net stockRequests)).2.1
    (workerPoolDo (netOutcomes net stockRequests)).2.2

/-! ## Specification-side views of the scanning loop -/

/-- A unit the loop counts as failed: its error slot is non-nil, or its decoded
response carries no chart result (lines 53 and 61 of part_000). -/
def outcomeFailed (o : Except String StockResponseJson) : Bool :=
  match o with
  | .error _ => true
  | .ok r => r.chartResult.isEmpty

/-- The stock the loop builds for a kept unit: a statement-side view whose
`default` arms are unreachable under the theorems' no-panic hypotheses. -/
def stockOf (t : DomainTransforms) (req : StockRequest)
    (o : Except String StockResponseJson) : Stock :=
  match o with
  | .ok r =>
    match r.chartResult with
    | c :: _ => (mkStock t req c).getD default
    | [] => default
  | .error _ => default

/-- The usable results: the stocks of the non-failed units, in input order. -/
def usableStocks (t : DomainTransforms) (reqs : List StockRequest)
    (outcomes : List (Except String StockResponseJson)) : List Stock :=
  ((reqs.zip outcomes).filter fun p => !outcomeFailed p.2).map
    fun p => stockOf t p.1 p.2

/-- How many units of the batch the loop counts as failed. -/
def failedCount (outcomes : List (Except String StockResponseJson)) : Nat :=
  outcomes.countP fun o => outcomeFailed o

/-- A unit that makes the loop panic: nil error and chart data, but an empty
`Indicators.Quote` (part_000 line 67). -/
def outcomePanics (o : Except String StockResponseJson) : Bool :=
  match o with
  | .ok r =>
    match r.chartResult with
    | c :: _ => c.quote.isEmpty
    | [] => false
  | .error _ => false

/-! ## Concrete inputs used by witnesses and counterexamples -/

def trivialTransforms : DomainTransforms :=
  ⟨fun _ _ => 0, fun _ _ _ => "", fun ps => ps⟩

/-- A decoded response whose `Chart.Result` is empty (part_000 line 61). -/
def emptyChartResponse : StockResponseJson := ⟨[]⟩

/-- A decoded response with one chart result. -/
def okChartResponse : StockResponseJson := ⟨[⟨⟨"OK", 1, 1⟩, [⟨[1, 2]⟩]⟩]⟩

/-- A decoded response with chart data but an empty `Indicators.Quote`: the
loop panics on it at part_000 line 67. -/
def panicResponse : StockResponseJson := ⟨[⟨⟨"P", 1, 1⟩, []⟩]⟩

/-- A network where the unit for symbol A fails and every other unit returns
a decoded response with chart data but no quote series. -/
def panicNet (url : String) : Except String StockResponseJson :=
  if url = stockRequestUrl ⟨"A", "A"⟩ then .error "boom" else .ok panicResponse

def witnessRequests : List StockRequest :=
  [⟨"A", "A"⟩, ⟨"B", "B"⟩, ⟨"C", "C"⟩, ⟨"D", "D"⟩, ⟨"E", "E"⟩]

/-- A network where exactly the units for symbols B and D (indices 1 and 3 of
`witnessRequests`) fail. -/
def witnessNet (url : String) : Except String StockResponseJson :=
  if url = stockRequestUrl ⟨"B", "B"⟩ ∨ url = stockRequestUrl ⟨"D", "D"⟩ then
    .error "boom"
  else
    .ok okChartResponse

def allFailNet (_url : String) : Except String StockResponseJson :=
  .error "down"

def allOkNet (_url : String) : Except String StockResponseJson :=
  .ok okChartResponse

/-! ## Widget fields (src/internal/widget/fields.go)

The regular expressions `HSLColorPattern` and `DurationPattern` are embedded as
deterministic matchers over character lists: both patterns are anchored and
every alternation in them is decided by the next character (a digit run, a
separator run, a literal), so the backtracking engine's result is the
one these functions compute. -/

def isSepChar (c : Char) : Bool := c = ' ' || c = ','

/-- The `\d` character class of both patterns: an ASCII decimal digit. -/
def isDigitChar (c : Char) : Bool := 48 ≤ c.toNat && c.toNat ≤ 57

/-- The numeric value of a decimal digit string (what `strconv.ParseUint` /
`strconv.Atoi` compute on the digit-only submatches of the two patterns). -/
def digitsVal : List Char → Nat
  | [] => 0
  | c :: cs => (c.toNat - 48) * 10 ^ cs.length + digitsVal cs

/-- `strconv.ParseUint(s, 10, bits)` on a submatch: the input is a digit
string; the call errors when the value does not fit `bits` bits. -/
def parseUint (ds : List Char) (bits : Nat) : Option Nat :=
  if ds ≠ [] ∧ ds.all isDigitChar ∧ digitsVal ds < 2 ^ bits then
    some (digitsVal ds)
  else
    none

/-- One `(\d{1,3})` group: the maximal digit run must have 1 to 3 digits (on
a run of 4 or more the anchored pattern has no way to place the following
separator, percent or end at a digit, so the whole match fails). -/
def chompDigits (cs : List Char) : Option (List Char × List Char) :=
  if 1 ≤ (cs.takeWhile isDigitChar).length ∧ (cs.takeWhile isDigitChar).length ≤ 3 then
    some (cs.takeWhile isDigitChar, cs.dropWhile isDigitChar)
  else
    none

/-- One `(?: |,)+` separator run: at least one space or comma. -/
def chompSeps (cs : List Char) : Option (List Char) :=
  if (cs.takeWhile isSepChar).isEmpty then none else some (cs.dropWhile isSepChar)

/-- An optional literal (`%?`, `\)?`). -/
def chompOpt (c : Char) (cs : List Char) : List Char :=
  if cs.take 1 = [c] then cs.drop 1 else cs

def hslaOpen : List Char := ['h', 's', 'l', 'a', '(']

def hslOpen : List Char := ['h', 's', 'l', '(']

/-- The optional `(?:hsla?\()?` opener of `HSLColorPattern`. -/
def dropHslOpen (cs : List Char) : List Char :=
  if cs.take 5 = hslaOpen then cs.drop 5
  else if cs.take 4 = hslOpen then cs.drop 4
  else cs

/-- `HSLColorPattern.FindStringSubmatch` (fields.go line 15):
`^(?:hsla?\()?(\d{1,3})(?: |,)+(\d{1,3})%?(?: |,)+(\d{1,3})%?\)?$`.
Returns the three digit groups when the whole string matches (the Go call
returns a 4-element match list), `none` otherwise. -/
def hslFindSubmatch (cs : List Char) : Option (List Char × List Char × List Char) :=
  match chompDigits (dropHslOpen cs) with
  | none => none
  | some (g1, r1) =>
    match chompSeps r1 with
    | none => none
    | some r2 =>
      match chompDigits r2 with
      | none => none
      | some (g2, r3) =>
        match chompSeps (chompOpt '%' r3) with
        | none => none
        | some r4 =>
          match chompDigits r4 with
          | none => none
          | some (g3, r5) =>
            if (chompOpt ')' (chompOpt '%' r5)).isEmpty then some (g1, g2, g3)
            else none

def HSLHueMax : Nat := 360

def HSLSaturationMax : Nat := 100

def HSLLightnessMax : Nat := 100

structure HSLColorField where
  hue : Nat
  saturation : Nat
  lightness : Nat
deriving DecidableEq, Inhabited

/-- `HSLColorField.UnmarshalYAML` (fields.go lines 38-86) on the decoded
string: returns the field's new value and the error (`none` = nil); on any
error the field keeps its previous value, as the Go method assigns the
components only after every check passed.  The hue is parsed with bit size 16
(a 3-digit group always fits), saturation and lightness with bit size 8 (a
group above 255 makes `ParseUint` itself error). -/
def hslUnmarshalYAML (c : HSLColorField) (value : List Char) :
    HSLColorField × Option String :=
  match hslFindSubmatch value with
  | none => (c, some ("invalid HSL color format: " ++ String.mk value))
  | some (g1, g2, g3) =>
    match parseUint g1 16 with
    | none => (c, some "strconv.ParseUint: value out of range")
    | some hue =>
      if hue > HSLHueMax then (c, some "HSL hue must be between 0 and 360") else
      match parseUint g2 8 with
      | none => (c, some "strconv.ParseUint: value out of range")
      | some sat =>
        if sat > HSLSaturationMax then
          (c, some "HSL saturation must be between 0 and 100")
        else
          match parseUint g3 8 with
          | none => (c, some "strconv.ParseUint: value out of range")
          | some light =>
            if light > HSLLightnessMax then
              (c, some "HSL lightness must be between 0 and 100")
            else
              ({ hue := hue, saturation := sat, lightness := light }, none)

/-- `DurationPattern.FindStringSubmatch` (fields.go line 88):
`^(\d+)(s|m|h|d)$` — a non-empty digit run followed by exactly one unit
letter.  Returns the digit group and the unit when the whole string matches. -/
def durationFindSubmatch (cs : List Char) : Option (List Char × Char) :=
  match cs.dropWhile isDigitChar with
  | [u] =>
    if (u = 's' ∨ u = 'm' ∨ u = 'h' ∨ u = 'd') ∧ cs.takeWhile isDigitChar ≠ [] then
      some (cs.takeWhile isDigitChar, u)
    else none
  | _ => none

/-- The largest value fitting Go's 64-bit `int`. -/
def maxInt64 : Int := 2 ^ 63 - 1

/-- Reduction of an integer into the signed 64-bit range, as Go's wrapping
`int64` arithmetic produces it. -/
def int64wrap (n : Int) : Int := (n + 2 ^ 63) % 2 ^ 64 - 2 ^ 63

/-- `strconv.Atoi` on the digit submatch: errors when the value overflows a
signed 64-bit int. -/
def atoiDigits (ds : List Char) : Option Int :=
  if ds ≠ [] ∧ ds.all isDigitChar ∧ (digitsVal ds : Int) ≤ maxInt64 then
    some ((digitsVal ds : Int))
  else
    none

def nanosPerSecond : Int := 1000000000

/-- `DurationField.UnmarshalYAML` (fields.go lines 92-123) on the decoded
string.  The field is a `time.Duration`, an `int64` nanosecond count, modelled
as an `Int` wrapped into the signed 64-bit range; `time.Duration(duration) *
time.Second` and its siblings are single wrapping multiplications, and the
`d` case (`* 24 * time.Hour`) wraps twice, left-associatively.  Returns the
field's new value and the error (`none` = nil). -/
def durationUnmarshalYAML (d : Int) (value : List Char) : Int × Option String :=
  match durationFindSubmatch value with
  | none => (d, some ("invalid duration format: " ++ String.mk value))
  | some (ds, u) =>
    match atoiDigits ds with
    | none => (d, some "strconv.Atoi: value out of range")
    | some n =>
      if u = 's' then (int64wrap (n * nanosPerSecond), none)
      else if u = 'm' then (int64wrap (n * (60 * nanosPerSecond)), none)
      else if u = 'h' then (int64wrap (n * (3600 * nanosPerSecond)), none)
      else if u = 'd' then
        (int64wrap (int64wrap (n * 24) * (3600 * nanosPerSecond)), none)
      else (d, none)

/-- The acceptance condition and result of claim C9 as amended, stated from
the shape of the string: the input must be a non-empty digit string followed
by one unit letter, the digits' value must fit a signed 64-bit int, and the
resulting field is that many seconds, minutes, hours or 24-hour days as a
wrapped 64-bit nanosecond count; every other input errors and leaves the
field unchanged. -/
def durationPerAmendedClaim (d : Int) (value : List Char) : Int × Option String :=
  match value.getLast? with
  | none => (d, some "rejected")
  | some u =>
    let ds := value.dropLast
    if ds ≠ [] ∧ ds.all isDigitChar ∧ (u = 's' ∨ u = 'm' ∨ u = 'h' ∨ u = 'd') then
      if (digitsVal ds : Int) ≤ maxInt64 then
        if u = 's' then (int64wrap ((digitsVal ds : Int) * nanosPerSecond), none)
        else if u = 'm' then (int64wrap ((digitsVal ds : Int) * (60 * nanosPerSecond)), none)
        else if u = 'h' then (int64wrap ((digitsVal ds : Int) * (3600 * nanosPerSecond)), none)
        else (int64wrap ((digitsVal ds : Int) * (24 * (3600 * nanosPerSecond))), none)
      else (d, some "rejected")
    else (d, some "rejected")

/-! ## Reddit widget (src/internal/widget/reddit.go) -/

/-- The `Reddit` widget's state: the configuration fields declared in
reddit.go, plus the embedded base's presentation state (title, cache
duration), whose type `widgetBase` is not among the source files. -/
structure RedditWidget where
  title : String
  cacheDurationMinutes : Int
  posts : List String
  subreddit : String
  style : String
  showThumbnails : Bool
  commentsUrlTemplate : String
  limit : Int
  collapseAfter : Int
deriving DecidableEq, Inhabited

/-- Modelled from the spec: `widgetBase.withTitle` is not among the source
files (the spec puts widget presentation state out of scope); modelled as
setting the base's title. -/
def withTitle (w : RedditWidget) (t : String) : RedditWidget :=
  { w with title := t }

/-- Modelled from the spec: `widgetBase.withCacheDuration` is not among the
source files; modelled as setting the base's cache duration. -/
def withCacheDuration (w : RedditWidget) (minutes : Int) : RedditWidget :=
  { w with cacheDurationMinutes := minutes }

/-- `Reddit.Initialize` (reddit.go lines 24-40): errors when no subreddit is
configured; otherwise replaces a non-positive limit by 15, a collapse-after of
0 or below -1 by 5, and sets the base's title and 30-minute cache duration.
Returns the error (`none` = nil) and the widget's new state. -/
def redditInitialize (w : RedditWidget) : Option String × RedditWidget :=
  if w.subreddit = "" then (some "no subreddit specified", w)
  else
    let w1 := if w.limit ≤ 0 then { w with limit := 15 } else w
    let w2 := if w1.collapseAfter = 0 ∨ w1.collapseAfter < -1 then
      { w1 with collapseAfter := 5 } else w1
    (none, withCacheDuration (withTitle w2 ("/r/" ++ w2.subreddit)) 30)

/-! ## Lemmas: the executor's write phase -/

theorem execFold_eq {α : Type} [Inhabited α] (outcomes : List (Except String α)) :
    ∀ (sched : List Nat) (a : List α) (b : List (Option String)),
      sched.foldl (fun acc i =>
          (acc.1.set i (unitValue (outcomes.getD i (.error ""))),
           acc.2.set i (unitError (outcomes.getD i (.error ""))))) (a, b) =
        (sched.foldl (fun l i => l.set i (unitValue (outcomes.getD i (.error "")))) a,
         sched.foldl (fun l i => l.set i (unitError (outcomes.getD i (.error "")))) b) := by
  intro sched
  induction sched with
  | nil => intro a b; rfl
  | cons i is ih =>
    intro a b
    rw [List.foldl_cons, List.foldl_cons, List.foldl_cons]
    exact ih _ _

theorem execSchedule_eq {α : Type} [Inhabited α] (outcomes : List (Except String α))
    (sched : List Nat) :
    execSchedule outcomes sched =
      (sched.foldl (fun l i => l.set i (unitValue (outcomes.getD i (.error ""))))
        (List.replicate outcomes.length default),
       sched.foldl (fun l i => l.set i (unitError (outcomes.getD i (.error ""))))
        (List.replicate outcomes.length none)) := by
  unfold execSchedule
  exact execFold_eq outcomes sched _ _

theorem foldl_set_get? {β : Type} (f : Nat → β) (sched : List Nat) :
    ∀ (acc : List β) (j : Nat),
      (sched.foldl (fun l i => l.set i (f i)) acc).get? j =
        if j ∈ sched ∧ j < acc.length then some (f j) else acc.get? j := by
  induction sched with
  | nil => intro acc j; simp
  | cons i is ih =>
    intro acc j
    rw [List.foldl_cons, ih, List.length_set, List.get?_set]
    by_cases hmem : j ∈ is
    · by_cases hlt : j < acc.length
      · simp [hmem, hlt]
      · have hnone : acc[j]? = none := List.getElem?_eq_none (le_of_not_lt hlt)
        simp [hmem, hlt, hnone]
    · rcases eq_or_ne i j with rfl | hij
      · by_cases hlt : i < acc.length
        · simp [hmem, hlt, List.get?_eq_get hlt]
        · have hnone : acc[i]? = none := List.getElem?_eq_none (le_of_not_lt hlt)
          simp [hmem, hlt, hnone]
      · simp [hmem, hij, List.mem_cons, Ne.symm hij]

theorem execSchedule_perm {α : Type} [Inhabited α] (outcomes : List (Except String α))
    (sched : List Nat) (hperm : sched.Perm (List.range outcomes.length)) :
    execSchedule outcomes sched = (outcomes.map unitValue, outcomes.map unitError) := by
  rw [execSchedule_eq]
  have hmem : ∀ j, j ∈ sched ↔ j < outcomes.length := by
    intro j
    rw [hperm.mem_iff, List.mem_range]
  have h1 : sched.foldl (fun l i => l.set i (unitValue (outcomes.getD i (.error ""))))
      (List.replicate outcomes.length default) = outcomes.map unitValue := by
    apply List.ext
    intro j
    rw [foldl_set_get?, List.get?_map]
    by_cases hj : j < outcomes.length
    · rw [List.get?_eq_get hj]
      simp [hmem, hj, List.length_replicate, List.getD_eq_get?, List.get?_eq_get hj]
    · have h1 : outcomes[j]? = none := List.getElem?_eq_none (le_of_not_lt hj)
      have h2 : (List.replicate outcomes.length (default : α))[j]? = none :=
        List.getElem?_eq_none (by simpa using le_of_not_lt hj)
      simp [hmem, hj, h1, h2]
  have h2 : sched.foldl (fun l i => l.set i (unitError (outcomes.getD i (.error ""))))
      (List.replicate outcomes.length none) = outcomes.map unitError := by
    apply List.ext
    intro j
    rw [foldl_set_get?, List.get?_map]
    by_cases hj : j < outcomes.length
    · rw [List.get?_eq_get hj]
      simp [hmem, hj, List.length_replicate, List.getD_eq_get?, List.get?_eq_get hj]
    · have h1 : outcomes[j]? = none := List.getElem?_eq_none (le_of_not_lt hj)
      have h2 : (List.replicate outcomes.length (none : Option String))[j]? = none :=
        List.getElem?_eq_none (by simpa using le_of_not_lt hj)
      simp [hmem, hj, h1, h2]
  rw [h1, h2]

theorem workerPoolDo_eq {α : Type} [Inhabited α] (outcomes : List (Except String α)) :
    workerPoolDo outcomes = (outcomes.map unitValue, outcomes.map unitError, none) := by
  unfold workerPoolDo
  rw [execSchedule_perm outcomes (List.range outcomes.length) (List.Perm.refl _)]

/-! ## Lemmas: the scanning loop as an ordered filter -/

theorem outcomePanics_of_failed (o : Except String StockResponseJson)
    (h : outcomeFailed o = true) : outcomePanics o = false := by
  cases o with
  | error e => rfl
  | ok r =>
    cases hr : r.chartResult with
    | nil => simp [outcomePanics, hr]
    | cons c cr => simp [outcomeFailed, hr] at h

theorem processResponses_eq (t : DomainTransforms) :
    ∀ (reqs : List StockRequest) (outcomes : List (Except String StockResponseJson)),
      reqs.length = outcomes.length →
      (∀ o ∈ outcomes, outcomePanics o = false) →
      processResponses t reqs (outcomes.map unitValue) (outcomes.map unitError) =
        some (usableStocks t reqs outcomes, failedCount outcomes) := by
  intro reqs
  induction reqs with
  | nil =>
    intro outcomes h _
    have : outcomes = [] := by
      cases outcomes with
      | nil => rfl
      | cons o os => simp at h
    subst this
    rfl
  | cons req reqs ih =>
    intro outcomes h hpan
    cases outcomes with
    | nil => simp at h
    | cons o os =>
      have hlen : reqs.length = os.length := by simpa using h
      have hpo : outcomePanics o = false := hpan o (List.mem_cons_self o os)
      have hpos : ∀ x ∈ os, outcomePanics x = false := fun x hx =>
        hpan x (List.mem_cons_of_mem o hx)
      have ihr := ih os hlen hpos
      cases o with
      | error e =>
        simp only [processResponses, unitValue, unitError, usableStocks, failedCount,
          outcomeFailed, List.countP_cons, List.zip_cons_cons, List.filter_cons,
          List.map_cons, Bool.not_true, cond_false] at ihr ⊢
        simp [ihr]
      | ok r =>
        cases hr : r.chartResult with
        | nil =>
          simp only [processResponses, unitValue, unitError, usableStocks, failedCount,
            outcomeFailed, List.countP_cons, List.zip_cons_cons, List.filter_cons,
            List.map_cons, hr] at ihr ⊢
          simp [ihr]
        | cons c crest =>
          have hq : c.quote.isEmpty = false := by
            have hx := hpo
            simp only [outcomePanics, hr] at hx
            exact hx
          have hsome : (mkStock t req c).isSome := by
            unfold mkStock
            cases hcq : c.quote with
            | nil =>
              rw [hcq] at hq
              simp at hq
            | cons q qs => simp
          obtain ⟨st, hst⟩ := Option.isSome_iff_exists.1 hsome
          simp only [processResponses, unitValue, unitError, usableStocks, failedCount,
            outcomeFailed, List.countP_cons, List.zip_cons_cons,
            List.filter_cons, List.map_cons, hr, hst] at ihr ⊢
          simp [ihr, stockOf, hr, hst]

theorem usableStocks_len (t : DomainTransforms) :
    ∀ (reqs : List StockRequest) (outcomes : List (Except String StockResponseJson)),
      reqs.length = outcomes.length →
      (usableStocks t reqs outcomes).length + failedCount outcomes = outcomes.length := by
  intro reqs
  induction reqs with
  | nil =>
    intro outcomes h
    have : outcomes = [] := by
      cases outcomes with
      | nil => rfl
      | cons o os => simp at h
    subst this
    rfl
  | cons req reqs ih =>
    intro outcomes h
    cases outcomes with
    | nil => simp at h
    | cons o os =>
      have hlen : reqs.length = os.length := by simpa using h
      have ihr := ih os hlen
      by_cases hf : outcomeFailed o = true
      · simp only [usableStocks, failedCount, List.zip_cons_cons, List.filter_cons,
          List.countP_cons, hf] at ihr ⊢
        simp at ihr ⊢
        omega
      · simp only [usableStocks, failedCount, List.zip_cons_cons, List.filter_cons,
          List.countP_cons, Bool.not_eq_true] at ihr ⊢
        rw [Bool.not_eq_true] at hf
        simp [hf] at ihr ⊢
        omega

/-- The helper form of the fetch pipeline used by the claim proofs: the
executor's aligned outputs fed to the classification step. -/
theorem fetch_unfold (t : DomainTransforms) (net : String → Except String StockResponseJson)
    (reqs : List StockRequest) :
    FetchStocksDataFromYahoo t net reqs =
      classifyFetchOutcome t reqs ((netOutcomes net reqs).map unitValue)
        ((netOutcomes net reqs).map unitError) none := by
  unfold FetchStocksDataFromYahoo
  rw [workerPoolDo_eq]

theorem netOutcomes_length (net : String → Except String StockResponseJson)
    (reqs : List StockRequest) : (netOutcomes net reqs).length = reqs.length := by
  simp [netOutcomes]

/-! ## Claims about the stocks feed and the executor -/

/-- C1 counterexample: two units where exactly the first fails (k = 1 of
N = 2, so 0 < k < N), but the second, successfully decoded, carries chart data
with an empty `Indicators.Quote`: the loop panics at part_000 line 67 and the
call crashes (returns nothing) instead of returning the usable results with a
PartialContent classification. -/
theorem fetchStocks_partialContent_cex :
    0 < failedCount (netOutcomes panicNet [⟨"A", "A"⟩, ⟨"B", "B"⟩]) ∧
    failedCount (netOutcomes panicNet [⟨"A", "A"⟩, ⟨"B", "B"⟩]) <
      ([⟨"A", "A"⟩, ⟨"B", "B"⟩] : List StockRequest).length ∧
    FetchStocksDataFromYahoo trivialTransforms panicNet [⟨"A", "A"⟩, ⟨"B", "B"⟩] =
      none :=
  ⟨by decide, by decide, by decide⟩

/-- C1 (amended): for a batch of N stock requests where k units fail (the loop
counts a unit as failed when its error slot is non-nil or its decoded response
has an empty `Chart.Result`) with 0 < k < N, and in which no unit panics the
loop (nil error and chart data but an empty `Indicators.Quote`, part_000 line
67), `FetchStocksDataFromYahoo` returns the stocks of the non-failed units —
length N − k, in the inputs' relative order — together with a PartialContent
classification whose failure count equals k. -/
theorem fetchStocks_partialContent (t : DomainTransforms)
    (net : String → Except String StockResponseJson) (reqs : List StockRequest)
    (hk0 : 0 < failedCount (netOutcomes net reqs))
    (hkN : failedCount (netOutcomes net reqs) < reqs.length)
    (hpan : ∀ o ∈ netOutcomes net reqs, outcomePanics o = false) :
    FetchStocksDataFromYahoo t net reqs =
      some (usableStocks t reqs (netOutcomes net reqs),
        some (.errPartialContent (failedCount (netOutcomes net reqs)))) ∧
    (usableStocks t reqs (netOutcomes net reqs)).length =
      reqs.length - failedCount (netOutcomes net reqs) := by
  have hlen : reqs.length = (netOutcomes net reqs).length :=
    (netOutcomes_length net reqs).symm
  have hul := usableStocks_len t reqs (netOutcomes net reqs) hlen
  have hlen2 : (usableStocks t reqs (netOutcomes net reqs)).length =
      reqs.length - failedCount (netOutcomes net reqs) := by omega
  have hempty : (usableStocks t reqs (netOutcomes net reqs)).isEmpty = false := by
    rw [List.isEmpty_eq_false, ← List.length_pos]
    omega
  refine ⟨?_, hlen2⟩
  rw [fetch_unfold]
  unfold classifyFetchOutcome
  rw [processResponses_eq t reqs (netOutcomes net reqs) hlen hpan]
  simp [hempty, hk0]

/-- C1 witness: the spec's example scenario — five units, the units at indices
1 and 3 (symbols B and D) fail, the other three succeed with quote data. -/
theorem fetchStocks_partialContent_witness :
    0 < failedCount (netOutcomes witnessNet witnessRequests) ∧
    failedCount (netOutcomes witnessNet witnessRequests) < witnessRequests.length ∧
    (∀ o ∈ netOutcomes witnessNet witnessRequests, outcomePanics o = false) ∧
    (FetchStocksDataFromYahoo trivialTransforms witnessNet witnessRequests =
      some (usableStocks trivialTransforms witnessRequests (netOutcomes witnessNet witnessRequests),
        some (.errPartialContent (failedCount (netOutcomes witnessNet witnessRequests)))) ∧
    (usableStocks trivialTransforms witnessRequests
        (netOutcomes witnessNet witnessRequests)).length =
      witnessRequests.length - failedCount (netOutcomes witnessNet witnessRequests)) :=
  ⟨by decide, by decide, by decide,
    fetchStocks_partialContent trivialTransforms witnessNet witnessRequests
      (by decide) (by decide) (by decide)⟩

/-- C2: if every unit of a non-empty batch fails, `FetchStocksDataFromYahoo`
returns no usable results and the NoContent classification error. -/
theorem fetchStocks_noContent (t : DomainTransforms)
    (net : String → Except String StockResponseJson) (reqs : List StockRequest)
    (hne : reqs ≠ [])
    (hall : ∀ o ∈ netOutcomes net reqs, outcomeFailed o = true) :
    FetchStocksDataFromYahoo t net reqs = some ([], some .errNoContent) := by
  have hlen : reqs.length = (netOutcomes net reqs).length :=
    (netOutcomes_length net reqs).symm
  have hpan : ∀ o ∈ netOutcomes net reqs, outcomePanics o = false := fun o ho =>
    outcomePanics_of_failed o (hall o ho)
  have husable : usableStocks t reqs (netOutcomes net reqs) = [] := by
    unfold usableStocks
    rw [List.filter_eq_nil.2, List.map_nil]
    intro p hp
    have ho : p.2 ∈ netOutcomes net reqs := (List.of_mem_zip hp).2
    simp [hall p.2 ho]
  rw [fetch_unfold]
  unfold classifyFetchOutcome
  rw [processResponses_eq t reqs (netOutcomes net reqs) hlen hpan]
  simp [husable]

/-- C2 witness: two units, both failing. -/
theorem fetchStocks_noContent_witness :
    ([⟨"A", "A"⟩, ⟨"B", "B"⟩] : List StockRequest) ≠ [] ∧
    (∀ o ∈ netOutcomes allFailNet [⟨"A", "A"⟩, ⟨"B", "B"⟩], outcomeFailed o = true) ∧
    FetchStocksDataFromYahoo trivialTransforms allFailNet [⟨"A", "A"⟩, ⟨"B", "B"⟩] =
      some ([], some .errNoContent) :=
  ⟨by decide, by decide,
    fetchStocks_noContent trivialTransforms allFailNet [⟨"A", "A"⟩, ⟨"B", "B"⟩]
      (by decide) (by decide)⟩

/-- C4 counterexample: a non-empty batch whose single unit has a nil error and
a non-empty `Chart.Result` — zero units fail — but an empty
`Indicators.Quote`: the loop panics at part_000 line 67 and the call crashes
(returns nothing) instead of returning a nil classification with one result
per request. -/
theorem fetchStocks_allSucceeded_cex :
    ([⟨"B", "B"⟩] : List StockRequest) ≠ [] ∧
    (∀ o ∈ netOutcomes panicNet [⟨"B", "B"⟩], outcomeFailed o = false) ∧
    FetchStocksDataFromYahoo trivialTransforms panicNet [⟨"B", "B"⟩] = none :=
  ⟨by decide, by decide, by decide⟩

/-- C4 (amended): if zero units of a non-empty batch fail and no unit panics
the loop (nil error and chart data but an empty `Indicators.Quote`, part_000
line 67), `FetchStocksDataFromYahoo` returns a nil classification error and
one usable result per input request. -/
theorem fetchStocks_allSucceeded (t : DomainTransforms)
    (net : String → Except String StockResponseJson) (reqs : List StockRequest)
    (hne : reqs ≠ [])
    (hall : ∀ o ∈ netOutcomes net reqs, outcomeFailed o = false)
    (hpan : ∀ o ∈ netOutcomes net reqs, outcomePanics o = false) :
    FetchStocksDataFromYahoo t net reqs =
      some (usableStocks t reqs (netOutcomes net reqs), none) ∧
    (usableStocks t reqs (netOutcomes net reqs)).length = reqs.length := by
  have hlen : reqs.length = (netOutcomes net reqs).length :=
    (netOutcomes_length net reqs).symm
  have hfail : failedCount (netOutcomes net reqs) = 0 := by
    unfold failedCount
    rw [List.countP_eq_zero]
    intro o ho
    simp [hall o ho]
  have hul := usableStocks_len t reqs (netOutcomes net reqs) hlen
  have hlen2 : (usableStocks t reqs (netOutcomes net reqs)).length = reqs.length := by
    omega
  have hpos : 0 < reqs.length := List.length_pos.2 hne
  have hempty : (usableStocks t reqs (netOutcomes net reqs)).isEmpty = false := by
    rw [List.isEmpty_eq_false, ← List.length_pos]
    omega
  refine ⟨?_, hlen2⟩
  rw [fetch_unfold]
  unfold classifyFetchOutcome
  rw [processResponses_eq t reqs (netOutcomes net reqs) hlen hpan]
  simp [hempty, hfail]

/-- C4 witness: two units, both succeeding with quote data. -/
theorem fetchStocks_allSucceeded_witness :
    ([⟨"A", "A"⟩, ⟨"B", "B"⟩] : List StockRequest) ≠ [] ∧
    (∀ o ∈ netOutcomes allOkNet [⟨"A", "A"⟩, ⟨"B", "B"⟩], outcomeFailed o = false) ∧
    (∀ o ∈ netOutcomes allOkNet [⟨"A", "A"⟩, ⟨"B", "B"⟩], outcomePanics o = false) ∧
    (FetchStocksDataFromYahoo trivialTransforms allOkNet [⟨"A", "A"⟩, ⟨"B", "B"⟩] =
      some (usableStocks trivialTransforms [⟨"A", "A"⟩, ⟨"B", "B"⟩]
        (netOutcomes allOkNet [⟨"A", "A"⟩, ⟨"B", "B"⟩]), none) ∧
    (usableStocks trivialTransforms [⟨"A", "A"⟩, ⟨"B", "B"⟩]
        (netOutcomes allOkNet [⟨"A", "A"⟩, ⟨"B", "B"⟩])).length = 2) :=
  ⟨by decide, by decide, by decide,
    fetchStocks_allSucceeded trivialTransforms allOkNet [⟨"A", "A"⟩, ⟨"B", "B"⟩]
      (by decide) (by decide) (by decide)⟩

/-- C3 counterexample: a unit whose error slot is nil but whose decoded
response carries an empty `Chart.Result` — the error sequence is `[nil]`, yet
the usable output is empty, so "kept iff errors[i] is nil" fails at index 0. -/
theorem classify_drops_nilError_entry :
    (workerPoolDo (netOutcomes (fun _ => .ok emptyChartResponse) [⟨"A", "A"⟩])).2.1 =
      [none] ∧
    FetchStocksDataFromYahoo trivialTransforms (fun _ => .ok emptyChartResponse)
      [⟨"A", "A"⟩] = some ([], some .errNoContent) := by
  constructor
  · rfl
  · rfl

/-- C3 (amended): provided no entry panics the loop (nil error and chart data
but an empty `Indicators.Quote`, part_000 line 67 — that entry would crash the
call), the classification step keeps exactly the results at indices whose
error is nil AND whose response has a non-empty `Chart.Result` — preserving
relative order — and counts every other index as a failure; an entry with nil
error but empty chart payload is dropped and counted. -/
theorem classify_keeps_exactly_nonfailed (t : DomainTransforms)
    (reqs : List StockRequest) (outcomes : List (Except String StockResponseJson))
    (hlen : reqs.length = outcomes.length)
    (hpan : ∀ o ∈ outcomes, outcomePanics o = false) :
    processResponses t reqs (outcomes.map unitValue) (outcomes.map unitError) =
      some (((reqs.zip outcomes).filter fun p => !outcomeFailed p.2).map
        (fun p => stockOf t p.1 p.2),
       outcomes.countP fun o => outcomeFailed o) :=
  processResponses_eq t reqs outcomes hlen hpan

/-- C3 witness: the five-unit scenario with failures at indices 1 and 3. -/
theorem classify_keeps_exactly_nonfailed_witness :
    processResponses trivialTransforms witnessRequests
        ((netOutcomes witnessNet witnessRequests).map unitValue)
        ((netOutcomes witnessNet witnessRequests).map unitError) =
      some (((witnessRequests.zip (netOutcomes witnessNet witnessRequests)).filter
          fun p => !outcomeFailed p.2).map
        (fun p => stockOf trivialTransforms p.1 p.2),
       (netOutcomes witnessNet witnessRequests).countP fun o => outcomeFailed o) :=
  classify_keeps_exactly_nonfailed trivialTransforms witnessRequests
    (netOutcomes witnessNet witnessRequests) (by decide) (by decide)

/-- C5: for every batch and any mix of per-unit success and failure, the
executor returns result and error sequences of length N that are index-aligned
with the input units, and the output is the same for every completion order
(any permutation `sched` of the unit indices). -/
theorem workerPool_output_aligned {α : Type} [Inhabited α]
    (outcomes : List (Except String α)) (sched : List Nat)
    (hperm : sched.Perm (List.range outcomes.length)) :
    (execSchedule outcomes sched).1.length = outcomes.length ∧
    (execSchedule outcomes sched).2.length = outcomes.length ∧
    execSchedule outcomes sched = (outcomes.map unitValue, outcomes.map unitError) ∧
    (workerPoolDo outcomes).1 = outcomes.map unitValue ∧
    (workerPoolDo outcomes).2.1 = outcomes.map unitError ∧
    ∀ i, i < outcomes.length →
      (workerPoolDo outcomes).1.getD i default =
        unitValue (outcomes.getD i (.error "")) ∧
      (workerPoolDo outcomes).2.1.getD i none =
        unitError (outcomes.getD i (.error "")) := by
  have h := execSchedule_perm outcomes sched hperm
  refine ⟨by rw [h]; simp, by rw [h]; simp, h, by rw [workerPoolDo_eq],
    by rw [workerPoolDo_eq], ?_⟩
  · intro i hi
    rw [workerPoolDo_eq]
    constructor
    · simp [List.getD_eq_get?, List.get?_map, List.getElem?_eq_getElem hi]
    · simp [List.getD_eq_get?, List.get?_map, List.getElem?_eq_getElem hi]

/-- C5 witness: three units, the middle one failing, completing in the order
2, 0, 1. -/
theorem workerPool_output_aligned_witness :
    (execSchedule [Except.ok 5, Except.error "x", Except.ok (7 : Nat)] [2, 0, 1]).1.length = 3 ∧
    (execSchedule [Except.ok 5, Except.error "x", Except.ok (7 : Nat)] [2, 0, 1]).2.length = 3 ∧
    execSchedule [Except.ok 5, Except.error "x", Except.ok (7 : Nat)] [2, 0, 1] =
      ([Except.ok 5, Except.error "x", Except.ok (7 : Nat)].map unitValue,
       [Except.ok 5, Except.error "x", Except.ok (7 : Nat)].map unitError) ∧
    (workerPoolDo [Except.ok 5, Except.error "x", Except.ok (7 : Nat)]).1 =
      [Except.ok 5, Except.error "x", Except.ok (7 : Nat)].map unitValue ∧
    (workerPoolDo [Except.ok 5, Except.error "x", Except.ok (7 : Nat)]).2.1 =
      [Except.ok 5, Except.error "x", Except.ok (7 : Nat)].map unitError ∧
    ∀ i, i < [Except.ok 5, Except.error "x", Except.ok (7 : Nat)].length →
      (workerPoolDo [Except.ok 5, Except.error "x", Except.ok (7 : Nat)]).1.getD i default =
        unitValue ([Except.ok 5, Except.error "x", Except.ok (7 : Nat)].getD i (.error "")) ∧
      (workerPoolDo [Except.ok 5, Except.error "x", Except.ok (7 : Nat)]).2.1.getD i none =
        unitError ([Except.ok 5, Except.error "x", Except.ok (7 : Nat)].getD i (.error "")) :=
  workerPool_output_aligned [Except.ok 5, Except.error "x", Except.ok (7 : Nat)]
    [2, 0, 1] (by decide)

/-- C6 counterexample: a zero-unit batch is still classified as NoContent —
line 93 of part_000 fires whenever no stock was built, N = 0 included — so
"NoContent only when N > 0" fails. -/
theorem fetch_empty_noContent :
    FetchStocksDataFromYahoo trivialTransforms allOkNet [] =
      some ([], some .errNoContent) := rfl

/-- C6 (amended): a zero-unit batch yields empty result and error sequences
with no batch error from the executor, and `FetchStocksDataFromYahoo` then
returns the NoContent classification: NoContent is produced whenever there are
no usable results, a zero-unit batch included. -/
theorem fetch_empty_batch (t : DomainTransforms)
    (net : String → Except String StockResponseJson) :
    workerPoolDo (netOutcomes net []) = ([], [], none) ∧
    FetchStocksDataFromYahoo t net [] = some ([], some .errNoContent) :=
  ⟨rfl, rfl⟩

/-- C7: a non-nil executor batch error makes `FetchStocksDataFromYahoo` return
no per-unit results at all — the single terminal error wrapping NoContent,
never mixed with per-unit errors — and conversely the (spec-modelled) executor
never reports a batch error, however many units failed. -/
theorem batchErr_terminal (t : DomainTransforms) (reqs : List StockRequest)
    (resps : List StockResponseJson) (errs : List (Option String)) :
    (∀ e : String, classifyFetchOutcome t reqs resps errs (some e) =
      some ([], some (.errNoContentWrapping e))) ∧
    (∀ outcomes : List (Except String StockResponseJson),
      (workerPoolDo outcomes).2.2 = none) :=
  ⟨fun _ => rfl, fun _ => rfl⟩

/-! ## Lemmas: digit groups of the patterns -/

theorem digitsVal_lt (ds : List Char) (h : ds.all isDigitChar = true) :
    digitsVal ds < 10 ^ ds.length := by
  induction ds with
  | nil => simp [digitsVal]
  | cons c cs ih =>
    rw [List.all_cons, Bool.and_eq_true] at h
    obtain ⟨hc, hcs⟩ := h
    have h9 : c.toNat - 48 ≤ 9 := by
      simp only [isDigitChar, Bool.and_eq_true, decide_eq_true_eq] at hc
      omega
    have hv := ih hcs
    have hmul : (c.toNat - 48) * 10 ^ cs.length ≤ 9 * 10 ^ cs.length :=
      Nat.mul_le_mul_right _ h9
    have heq : digitsVal (c :: cs) = (c.toNat - 48) * 10 ^ cs.length + digitsVal cs :=
      rfl
    have hlen : (c :: cs).length = cs.length + 1 := rfl
    rw [heq, hlen, pow_succ]
    omega

theorem chompDigits_spec (cs g r : List Char) (h : chompDigits cs = some (g, r)) :
    g.all isDigitChar = true ∧ 1 ≤ g.length ∧ g.length ≤ 3 := by
  unfold chompDigits at h
  split_ifs at h with hc
  simp only [Option.some.injEq, Prod.mk.injEq] at h
  obtain ⟨hg, hr⟩ := h
  subst hg
  exact ⟨List.all_takeWhile, hc.1, hc.2⟩

theorem parseUint_some (g : List Char) (bits n : Nat)
    (h : parseUint g bits = some n) : n = digitsVal g := by
  unfold parseUint at h
  split_ifs at h
  simp only [Option.some.injEq] at h
  omega

theorem parseUint_group16 (g : List Char) (hall : g.all isDigitChar = true)
    (h1 : 1 ≤ g.length) (h3 : g.length ≤ 3) :
    parseUint g 16 = some (digitsVal g) := by
  unfold parseUint
  rw [if_pos]
  refine ⟨?_, hall, ?_⟩
  · intro hnil
    rw [hnil] at h1
    simp at h1
  · have hlt := digitsVal_lt g hall
    have hle : 10 ^ g.length ≤ 10 ^ 3 := Nat.pow_le_pow_right (by norm_num) h3
    have e1 : (10 : Nat) ^ 3 = 1000 := by norm_num
    have e2 : (2 : Nat) ^ 16 = 65536 := by norm_num
    omega

theorem parseUint_group8_le100 (g : List Char) (hall : g.all isDigitChar = true)
    (h1 : 1 ≤ g.length) (hv : digitsVal g ≤ 100) :
    parseUint g 8 = some (digitsVal g) := by
  unfold parseUint
  rw [if_pos]
  refine ⟨?_, hall, ?_⟩
  · intro hnil
    rw [hnil] at h1
    simp at h1
  · have e2 : (2 : Nat) ^ 8 = 256 := by norm_num
    omega

theorem hslFindSubmatch_groups (v g1 g2 g3 : List Char)
    (h : hslFindSubmatch v = some (g1, g2, g3)) :
    (g1.all isDigitChar = true ∧ 1 ≤ g1.length ∧ g1.length ≤ 3) ∧
    (g2.all isDigitChar = true ∧ 1 ≤ g2.length ∧ g2.length ≤ 3) ∧
    (g3.all isDigitChar = true ∧ 1 ≤ g3.length ∧ g3.length ≤ 3) := by
  unfold hslFindSubmatch at h
  split at h
  · exact absurd h (by simp)
  · rename_i p1 a1 r1 heq1
    split at h
    · exact absurd h (by simp)
    · rename_i r2 heq2
      split at h
      · exact absurd h (by simp)
      · rename_i p2 a2 r3 heq3
        split at h
        · exact absurd h (by simp)
        · rename_i r4 heq4
          split at h
          · exact absurd h (by simp)
          · rename_i p3 a3 r5 heq5
            split_ifs at h with hend
            simp only [Option.some.injEq, Prod.mk.injEq] at h
            obtain ⟨e1, e2, e3⟩ := h
            subst e1
            subst e2
            subst e3
            exact ⟨chompDigits_spec _ _ _ heq1, chompDigits_spec _ _ _ heq3,
              chompDigits_spec _ _ _ heq5⟩

/-! ## Claim C8: HSLColorField.UnmarshalYAML -/

/-- C8: `HSLColorField.UnmarshalYAML` succeeds iff the input matches the HSL
pattern and the three parsed numbers satisfy hue ≤ 360, saturation ≤ 100,
lightness ≤ 100; on success the components equal the parsed numbers, and on
any failure the field keeps its previous value. -/
theorem hsl_unmarshal_spec (c : HSLColorField) (v : List Char) :
    ((hslUnmarshalYAML c v).2 = none ↔
      ∃ a1 a2 a3, hslFindSubmatch v = some (a1, a2, a3) ∧
        digitsVal a1 ≤ HSLHueMax ∧ digitsVal a2 ≤ HSLSaturationMax ∧
        digitsVal a3 ≤ HSLLightnessMax) ∧
    (∀ a1 a2 a3, hslFindSubmatch v = some (a1, a2, a3) →
      digitsVal a1 ≤ HSLHueMax → digitsVal a2 ≤ HSLSaturationMax →
      digitsVal a3 ≤ HSLLightnessMax →
      hslUnmarshalYAML c v =
        ({ hue := digitsVal a1, saturation := digitsVal a2,
           lightness := digitsVal a3 }, none)) ∧
    ((hslUnmarshalYAML c v).2 = none ∨ (hslUnmarshalYAML c v).1 = c) := by
  cases hm : hslFindSubmatch v with
  | none =>
    refine ⟨?_, ?_, ?_⟩
    · simp [hslUnmarshalYAML, hm]
    · intro a1 a2 a3 hm'
      exact absurd hm' (by simp)
    · right
      simp [hslUnmarshalYAML, hm]
  | some g =>
    obtain ⟨g1, g2, g3⟩ := g
    obtain ⟨⟨ha1, hl1, hu1⟩, ⟨ha2, hl2, hu2⟩, ⟨ha3, hl3, hu3⟩⟩ :=
      hslFindSubmatch_groups v g1 g2 g3 hm
    have hp1 : parseUint g1 16 = some (digitsVal g1) := parseUint_group16 g1 ha1 hl1 hu1
    have hfailgen : ∀ m : String, hslUnmarshalYAML c v = (c, some m) →
        ¬(digitsVal g1 ≤ HSLHueMax ∧ digitsVal g2 ≤ HSLSaturationMax ∧
          digitsVal g3 ≤ HSLLightnessMax) →
        (((hslUnmarshalYAML c v).2 = none ↔
          ∃ a1 a2 a3, (some (g1, g2, g3) :
              Option (List Char × List Char × List Char)) = some (a1, a2, a3) ∧
            digitsVal a1 ≤ HSLHueMax ∧ digitsVal a2 ≤ HSLSaturationMax ∧
            digitsVal a3 ≤ HSLLightnessMax) ∧
        (∀ a1 a2 a3, (some (g1, g2, g3) :
            Option (List Char × List Char × List Char)) = some (a1, a2, a3) →
          digitsVal a1 ≤ HSLHueMax → digitsVal a2 ≤ HSLSaturationMax →
          digitsVal a3 ≤ HSLLightnessMax →
          hslUnmarshalYAML c v =
            ({ hue := digitsVal a1, saturation := digitsVal a2,
               lightness := digitsVal a3 }, none)) ∧
        ((hslUnmarshalYAML c v).2 = none ∨ (hslUnmarshalYAML c v).1 = c)) := by
      intro m hres hnb
      refine ⟨?_, ?_, ?_⟩
      · rw [hres]
        constructor
        · intro hx
          exact absurd hx (by simp)
        · rintro ⟨a1, a2, a3, hm', b1, b2, b3⟩
          simp only [Option.some.injEq, Prod.mk.injEq] at hm'
          obtain ⟨e1, e2, e3⟩ := hm'
          subst e1
          subst e2
          subst e3
          exact absurd ⟨b1, b2, b3⟩ hnb
      · intro a1 a2 a3 hm' b1 b2 b3
        simp only [Option.some.injEq, Prod.mk.injEq] at hm'
        obtain ⟨e1, e2, e3⟩ := hm'
        subst e1
        subst e2
        subst e3
        exact absurd ⟨b1, b2, b3⟩ hnb
      · right
        rw [hres]
    by_cases hb1 : digitsVal g1 ≤ HSLHueMax
    · by_cases hb2 : digitsVal g2 ≤ HSLSaturationMax
      · have hp2 : parseUint g2 8 = some (digitsVal g2) :=
          parseUint_group8_le100 g2 ha2 hl2 (by
            have h100 : HSLSaturationMax = 100 := rfl
            omega)
        by_cases hb3 : digitsVal g3 ≤ HSLLightnessMax
        · have hp3 : parseUint g3 8 = some (digitsVal g3) :=
            parseUint_group8_le100 g3 ha3 hl3 (by
              have h100 : HSLLightnessMax = 100 := rfl
              omega)
          have hres : hslUnmarshalYAML c v =
              ({ hue := digitsVal g1, saturation := digitsVal g2,
                 lightness := digitsVal g3 }, none) := by
            simp only [hslUnmarshalYAML, hm, hp1, hp2, hp3]
            rw [if_neg (by omega), if_neg (by omega), if_neg (by omega)]
          refine ⟨?_, ?_, ?_⟩
          · rw [hres]
            constructor
            · intro _
              exact ⟨g1, g2, g3, rfl, hb1, hb2, hb3⟩
            · intro _
              rfl
          · intro a1 a2 a3 hm' _ _ _
            simp only [Option.some.injEq, Prod.mk.injEq] at hm'
            obtain ⟨e1, e2, e3⟩ := hm'
            subst e1
            subst e2
            subst e3
            exact hres
          · left
            rw [hres]
        · cases hp3 : parseUint g3 8 with
          | none =>
            refine hfailgen "strconv.ParseUint: value out of range" ?_
              (fun hb => hb3 hb.2.2)
            simp only [hslUnmarshalYAML, hm, hp1, hp2, hp3]
            rw [if_neg (by omega), if_neg (by omega)]
          | some n =>
            have hn := parseUint_some g3 8 n hp3
            subst hn
            refine hfailgen "HSL lightness must be between 0 and 100" ?_
              (fun hb => hb3 hb.2.2)
            simp only [hslUnmarshalYAML, hm, hp1, hp2, hp3]
            rw [if_neg (by omega), if_neg (by omega), if_pos (by
              have h100 : HSLLightnessMax = 100 := rfl
              omega)]
      · cases hp2 : parseUint g2 8 with
        | none =>
          refine hfailgen "strconv.ParseUint: value out of range" ?_
            (fun hb => hb2 hb.2.1)
          simp only [hslUnmarshalYAML, hm, hp1, hp2]
          rw [if_neg (by omega)]
        | some n =>
          have hn := parseUint_some g2 8 n hp2
          subst hn
          refine hfailgen "HSL saturation must be between 0 and 100" ?_
            (fun hb => hb2 hb.2.1)
          simp only [hslUnmarshalYAML, hm, hp1, hp2]
          rw [if_neg (by omega), if_pos (by
            have h100 : HSLSaturationMax = 100 := rfl
            omega)]
    · refine hfailgen "HSL hue must be between 0 and 360" ?_ (fun hb => hb1 hb.1)
      simp only [hslUnmarshalYAML, hm, hp1]
      rw [if_pos (by omega)]

/-! ## Lemmas: the duration pattern and 64-bit wrapping -/

theorem takeWhile_append_nondigit (ds : List Char) (u : Char)
    (hds : ds.all isDigitChar = true) (hu : isDigitChar u = false) :
    (ds ++ [u]).takeWhile isDigitChar = ds ∧
    (ds ++ [u]).dropWhile isDigitChar = [u] := by
  induction ds with
  | nil => simp [List.takeWhile_cons, List.dropWhile_cons, hu]
  | cons c cs ih =>
    rw [List.all_cons, Bool.and_eq_true] at hds
    obtain ⟨hc, hcs⟩ := hds
    obtain ⟨iht, ihd⟩ := ih hcs
    constructor
    · rw [List.cons_append, List.takeWhile_cons, if_pos hc, iht]
    · rw [List.cons_append, List.dropWhile_cons, if_pos hc, ihd]

theorem durationFindSubmatch_some (cs ds : List Char) (u : Char)
    (h : durationFindSubmatch cs = some (ds, u)) :
    cs = ds ++ [u] ∧ ds.all isDigitChar = true ∧ ds ≠ [] ∧
      (u = 's' ∨ u = 'm' ∨ u = 'h' ∨ u = 'd') := by
  unfold durationFindSubmatch at h
  split at h
  · rename_i u' heq
    split_ifs at h with hcond
    simp only [Option.some.injEq, Prod.mk.injEq] at h
    obtain ⟨e1, e2⟩ := h
    subst e1
    subst e2
    refine ⟨?_, List.all_takeWhile, hcond.2, hcond.1⟩
    conv_lhs => rw [← List.takeWhile_append_dropWhile isDigitChar cs]
    rw [heq]
  · exact absurd h (by simp)

theorem durationFindSubmatch_of_structure (ds : List Char) (u : Char)
    (hds : ds ≠ []) (hall : ds.all isDigitChar = true)
    (hu : u = 's' ∨ u = 'm' ∨ u = 'h' ∨ u = 'd') :
    durationFindSubmatch (ds ++ [u]) = some (ds, u) := by
  have hud : isDigitChar u = false := by
    rcases hu with rfl | rfl | rfl | rfl <;> rfl
  obtain ⟨ht, hd⟩ := takeWhile_append_nondigit ds u hall hud
  simp only [durationFindSubmatch, hd, ht]
  rw [if_pos ⟨hu, hds⟩]

theorem int64wrap_sub (a : Int) :
    int64wrap a = a - 2 ^ 64 * ((a + 2 ^ 63) / 2 ^ 64) := by
  unfold int64wrap
  rw [Int.emod_def]
  ring

theorem int64wrap_mul_left (a b : Int) :
    int64wrap (int64wrap a * b) = int64wrap (a * b) := by
  rw [int64wrap_sub a]
  unfold int64wrap
  have h : (a - 2 ^ 64 * ((a + 2 ^ 63) / 2 ^ 64)) * b + 2 ^ 63 =
      a * b + 2 ^ 63 + 2 ^ 64 * (-(((a + 2 ^ 63) / 2 ^ 64) * b)) := by ring
  rw [h, Int.add_mul_emod_self_left]

/-! ## Claim C9: DurationField.UnmarshalYAML -/

/-- C9 counterexample: the string "0s" is not a positive integer followed by a
unit, yet `UnmarshalYAML` accepts it — no error — and overwrites the field
(here previously 7) with 0 seconds. -/
theorem duration_accepts_zero :
    durationUnmarshalYAML 7 ['0', 's'] = (0, none) := by decide

/-- C9 (amended): `DurationField.UnmarshalYAML` accepts exactly the strings
consisting of a non-empty digit string followed by one of the units s, m, h, d
whose numeric value fits a signed 64-bit int, and sets the field to that many
seconds, minutes, hours or 24-hour days as a wrapping 64-bit nanosecond count;
every other input yields an error and leaves the field unchanged.  Stated as:
the method agrees with `durationPerAmendedClaim`, the direct rendering of that
sentence, on the resulting field and on success/failure. -/
theorem duration_unmarshal_refines (d : Int) (cs : List Char) :
    (durationUnmarshalYAML d cs).1 = (durationPerAmendedClaim d cs).1 ∧
    ((durationUnmarshalYAML d cs).2 = none ↔
      (durationPerAmendedClaim d cs).2 = none) := by
  cases hm : durationFindSubmatch cs with
  | some p =>
    obtain ⟨ds, u⟩ := p
    obtain ⟨hcs, hall, hds, hu⟩ := durationFindSubmatch_some cs ds u hm
    subst hcs
    by_cases hrange : (digitsVal ds : Int) ≤ maxInt64
    · have hat : atoiDigits ds = some ((digitsVal ds : Int)) := by
        unfold atoiDigits
        rw [if_pos ⟨hds, hall, hrange⟩]
      rcases hu with rfl | rfl | rfl | rfl
      · have hsrc : durationUnmarshalYAML d (ds ++ ['s']) =
            (int64wrap ((digitsVal ds : Int) * nanosPerSecond), none) := by
          simp only [durationUnmarshalYAML, hm, hat]
          simp
        have hcl : durationPerAmendedClaim d (ds ++ ['s']) =
            (int64wrap ((digitsVal ds : Int) * nanosPerSecond), none) := by
          simp only [durationPerAmendedClaim, List.getLast?_concat, List.dropLast_concat]
          simp [hds, hall, hrange]
        rw [hsrc, hcl]
        exact ⟨rfl, Iff.rfl⟩
      · have hsrc : durationUnmarshalYAML d (ds ++ ['m']) =
            (int64wrap ((digitsVal ds : Int) * (60 * nanosPerSecond)), none) := by
          simp only [durationUnmarshalYAML, hm, hat]
          simp
        have hcl : durationPerAmendedClaim d (ds ++ ['m']) =
            (int64wrap ((digitsVal ds : Int) * (60 * nanosPerSecond)), none) := by
          simp only [durationPerAmendedClaim, List.getLast?_concat, List.dropLast_concat]
          simp [hds, hall, hrange]
        rw [hsrc, hcl]
        exact ⟨rfl, Iff.rfl⟩
      · have hsrc : durationUnmarshalYAML d (ds ++ ['h']) =
            (int64wrap ((digitsVal ds : Int) * (3600 * nanosPerSecond)), none) := by
          simp only [durationUnmarshalYAML, hm, hat]
          simp
        have hcl : durationPerAmendedClaim d (ds ++ ['h']) =
            (int64wrap ((digitsVal ds : Int) * (3600 * nanosPerSecond)), none) := by
          simp only [durationPerAmendedClaim, List.getLast?_concat, List.dropLast_concat]
          simp [hds, hall, hrange]
        rw [hsrc, hcl]
        exact ⟨rfl, Iff.rfl⟩
      · have hsrc : durationUnmarshalYAML d (ds ++ ['d']) =
            (int64wrap (int64wrap ((digitsVal ds : Int) * 24) *
              (3600 * nanosPerSecond)), none) := by
          simp only [durationUnmarshalYAML, hm, hat]
          simp
        have hcl : durationPerAmendedClaim d (ds ++ ['d']) =
            (int64wrap ((digitsVal ds : Int) * (24 * (3600 * nanosPerSecond))), none) := by
          simp only [durationPerAmendedClaim, List.getLast?_concat, List.dropLast_concat]
          simp [hds, hall, hrange]
        rw [hsrc, hcl, int64wrap_mul_left, mul_assoc]
        exact ⟨rfl, Iff.rfl⟩
    · have hat : atoiDigits ds = none := by
        unfold atoiDigits
        rw [if_neg]
        intro hc
        exact hrange hc.2.2
      have hsrc : durationUnmarshalYAML d (ds ++ [u]) =
          (d, some "strconv.Atoi: value out of range") := by
        simp only [durationUnmarshalYAML, hm, hat]
      have hcl : durationPerAmendedClaim d (ds ++ [u]) = (d, some "rejected") := by
        simp only [durationPerAmendedClaim, List.getLast?_concat, List.dropLast_concat]
        rw [if_pos ⟨hds, hall, hu⟩, if_neg hrange]
      rw [hsrc, hcl]
      exact ⟨rfl, by simp⟩
  | none =>
    have hclaim : durationPerAmendedClaim d cs = (d, some "rejected") := by
      cases hl : cs.getLast? with
      | none => simp only [durationPerAmendedClaim, hl]
      | some u =>
        have hcsdec : cs.dropLast ++ [u] = cs := List.dropLast_append_getLast? u hl
        by_cases hcond : cs.dropLast ≠ [] ∧ cs.dropLast.all isDigitChar = true ∧
            (u = 's' ∨ u = 'm' ∨ u = 'h' ∨ u = 'd')
        · exfalso
          have hsm := durationFindSubmatch_of_structure cs.dropLast u hcond.1
            hcond.2.1 hcond.2.2
          rw [hcsdec, hm] at hsm
          exact absurd hsm (by simp)
        · simp only [durationPerAmendedClaim, hl]
          rw [if_neg hcond]
    have hsrc : durationUnmarshalYAML d cs =
        (d, some ("invalid duration format: " ++ String.mk cs)) := by
      simp only [durationUnmarshalYAML, hm]
    rw [hsrc, hclaim]
    exact ⟨rfl, by simp⟩

/-! ## Claim C10: Reddit.Initialize -/

/-- C10: `Reddit.Initialize` returns an error iff the subreddit is empty; on
success the limit is ≥ 1 and collapse-after is -1 or ≥ 1 (a limit ≤ 0 becomes
15, a collapse-after of 0 or below -1 becomes 5), and the other configuration
fields declared in reddit.go are unchanged; on the error path the widget is
left untouched. -/
theorem redditInitialize_spec (w : RedditWidget) :
    ((redditInitialize w).1.isSome ↔ w.subreddit = "") ∧
    (w.subreddit ≠ "" →
      (1 ≤ (redditInitialize w).2.limit ∧
       ((redditInitialize w).2.collapseAfter = -1 ∨
         1 ≤ (redditInitialize w).2.collapseAfter) ∧
       (redditInitialize w).2.limit = (if w.limit ≤ 0 then 15 else w.limit) ∧
       (redditInitialize w).2.collapseAfter =
         (if w.collapseAfter = 0 ∨ w.collapseAfter < -1 then 5
          else w.collapseAfter) ∧
       (redditInitialize w).2.subreddit = w.subreddit ∧
       (redditInitialize w).2.style = w.style ∧
       (redditInitialize w).2.showThumbnails = w.showThumbnails ∧
       (redditInitialize w).2.commentsUrlTemplate = w.commentsUrlTemplate ∧
       (redditInitialize w).2.posts = w.posts)) ∧
    (w.subreddit = "" → (redditInitialize w).2 = w) := by
  by_cases hs : w.subreddit = ""
  · refine ⟨?_, ?_, ?_⟩
    · simp [redditInitialize, hs]
    · intro h
      exact absurd hs h
    · intro _
      simp [redditInitialize, hs]
  · refine ⟨?_, ?_, ?_⟩
    · simp [redditInitialize, hs]
    · intro _
      by_cases hl : w.limit ≤ 0 <;>
        by_cases hc : w.collapseAfter = 0 ∨ w.collapseAfter < -1 <;>
        simp [redditInitialize, hs, hl, hc, withTitle, withCacheDuration] <;>
        omega
    · intro h
      exact absurd h hs
